import Mathlib

/-!
Shallow embedding of the battleship engine (`src/utils.py`, `src/gameplay.py`)
and proofs of the spec claims about it.

Modelling conventions:
* Python `int` is `Int`; a coordinate is `Int × Int` (row, col).
* A board (attack board or ship-location board) is a total map
  `Coord → Char` holding the cell character the source stores
  (`' '`, `'H'`, `'M'`, `'S'`).  The source only ever reads or writes
  in-bounds cells (every access is guarded by a bounds check or by the
  fleet-validation invariant), so the total-map model agrees with the
  Python list-of-lists on every access the program performs.
* Python's stable `sorted` is modelled by a stable insertion sort
  (`pySorted`); stable sorts with the same comparator agree pointwise.
* `random.choice` is modelled by an oracle `pick : List Coord → Coord`
  about which theorems assume only the contract of `random.choice`
  (the result is an element of the given non-empty list); the
  `random.randint` fallback is an oracle coordinate `fb`.
* Result values stay the strings of the source
  (`"hit"`, `"miss"`, `"sink"`, `"invalid"`).
-/

abbrev Coord := Int × Int

abbrev Ship := List Coord

abbrev Board := Coord → Char

def BOARD_SIZE : Int := 10

def SHIP_SIZES : List Nat := [4, 3, 3, 2, 2, 2, 1, 1, 1, 1]

/-- Embeds `utils.in_bounds`: `0 <= row < BOARD_SIZE and 0 <= col < BOARD_SIZE`. -/
def in_bounds (c : Coord) : Bool :=
  decide (0 ≤ c.1) && decide (c.1 < BOARD_SIZE) &&
  decide (0 ≤ c.2) && decide (c.2 < BOARD_SIZE)

/-- The eight direction offsets of `utils.get_adjacent_and_diagonal_cells`,
in source order: up, down, left, right, then the four diagonals. -/
def directions8 : List (Int × Int) :=
  [(-1, 0), (1, 0), (0, -1), (0, 1), (-1, -1), (-1, 1), (1, -1), (1, 1)]

/-- Embeds `utils.get_adjacent_and_diagonal_cells`: the in-bounds cells among the
eight neighbours of `c`, in offset order. -/
def get_adjacent_and_diagonal_cells (c : Coord) : List Coord :=
  (directions8.map (fun d => (c.1 + d.1, c.2 + d.2))).filter in_bounds

/-- Stable insertion used to model Python's stable `sorted`. -/
def insertLe {α : Type} (le : α → α → Bool) (x : α) : List α → List α
  | [] => [x]
  | a :: rest => if le a x then a :: insertLe le x rest else x :: a :: rest

/-- Python `sorted(l)` with comparator `le`: a stable sort. -/
def pySorted {α : Type} (le : α → α → Bool) (l : List α) : List α :=
  l.foldr (insertLe le) []

def natLe (a b : Nat) : Bool := decide (a ≤ b)

def intLe (a b : Int) : Bool := decide (a ≤ b)

/-- Lexicographic comparison of coordinate pairs, as Python compares tuples. -/
def coordLe (a b : Coord) : Bool :=
  decide (a.1 < b.1) || (decide (a.1 = b.1) && decide (a.2 ≤ b.2))

/-- Python `min` over a list of ints (the source only applies it to
non-empty lists; the `[]` value is never exercised). -/
def pyMin (l : List Int) : Int :=
  match l with
  | [] => 0
  | x :: xs => xs.foldl min x

/-- Python `max` over a list of ints (non-empty in the source). -/
def pyMax (l : List Int) : Int :=
  match l with
  | [] => 0
  | x :: xs => xs.foldl max x

/-- Python `list(range(lo, hi))` over ints. -/
def intRange (lo hi : Int) : List Int :=
  (List.range (hi - lo).toNat).map (fun (i : Nat) => lo + (i : Int))

/-- Embeds `utils.coords_to_str` on a single coordinate tuple:
`chr(col + 65)` followed by `row + 1`. -/
def coords_to_str_one (c : Coord) : String :=
  String.mk [Char.ofNat (c.2 + 65).toNat] ++ toString (c.1 + 1)

/-- Embeds `utils.coords_to_str` on a list of coordinates (a ship). -/
def coords_to_str (ship : List Coord) : String :=
  String.intercalate "," (ship.map coords_to_str_one)

/-- Embeds `utils.coord_to_human`: `chr(col + ord('A'))` followed by `row + 1`. -/
def coord_to_human (c : Coord) : String :=
  String.mk [Char.ofNat (c.2 + 65).toNat] ++ toString (c.1 + 1)

/-- The whitespace characters removed by Python `str.strip()`
(the ones that can occur in this program's inputs). -/
def isPySpace (c : Char) : Bool :=
  c = ' ' || c = '\t' || c = '\n' || c = '\r'

/-- Python `str.strip()` on a character list. -/
def pyStrip (cs : List Char) : List Char :=
  ((cs.dropWhile isPySpace).reverse.dropWhile isPySpace).reverse

/-- Python `s.split(sep)` for a one-character separator. -/
def splitOnChar (sep : Char) : List Char → List (List Char)
  | [] => [[]]
  | c :: rest =>
    let r := splitOnChar sep rest
    if c = sep then [] :: r
    else
      match r with
      | [] => [[c]]
      | g :: gs => (c :: g) :: gs

/-- Python `int()` applied to a (non-empty) string of decimal digits,
which is the only shape `str_to_coords` feeds it in this program. -/
def digitsVal (cs : List Char) : Int :=
  cs.foldl (fun acc c => acc * 10 + ((c.toNat : Int) - 48)) 0

/-- Python `str.upper()` on a single character (ASCII case). -/
def pyUpperChar (c : Char) : Char :=
  if decide ('a' ≤ c) && decide (c ≤ 'z') then Char.ofNat (c.toNat - 32) else c

/-- Python `str.lower()` on a single character (ASCII case), used to state
the case-insensitivity half of the round-trip claim. -/
def pyLowerChar (c : Char) : Char :=
  if decide ('A' ≤ c) && decide (c ≤ 'Z') then Char.ofNat (c.toNat + 32) else c

/-- Lower-case every character of a string. -/
def pyLower (s : String) : String :=
  String.mk (s.data.map pyLowerChar)

/-- One cell of `utils.str_to_coords`: strip, then
`row = int(cell[1:]) - 1`, `col = ord(cell[0].upper()) - 65`.
(`cell[0]` on an empty cell would raise in Python; the `headD` default is
never exercised by the claims, which only parse encoder output.) -/
def parseCellChars (cs : List Char) : Coord :=
  let cs' := pyStrip cs
  let row := digitsVal (cs'.drop 1) - 1
  let col := ((pyUpperChar (cs'.headD 'A')).toNat : Int) - 65
  (row, col)

/-- Embeds `utils.str_to_coords`. -/
def str_to_coords (s : String) : List Coord :=
  (splitOnChar ',' s.data).map parseCellChars

/-- Embeds `utils.ships_touch_or_overlap`.  Faithfully keeps the source's skip
condition `if coord in other_ship: continue`, which skips every ship that
contains `coord` — not only the ship currently being traversed. -/
def ships_touch_or_overlap (ships : List Ship) : Bool :=
  ships.any (fun ship =>
    ship.any (fun coord =>
      ships.any (fun other =>
        if decide (coord ∈ other) then false
        else (get_adjacent_and_diagonal_cells coord).any
          (fun cell => decide (cell ∈ other)))))

/-- The per-ship checks of `utils.validate_ship_fleet` (in-bounds,
straight line, no gaps), returning the first failure message.
`rows[0]` / `cols[0]` are modelled by `headD`; the source only reaches
these checks for ships of length ≥ 1 (the size check ran first). -/
def ship_error (ship : Ship) : Option String :=
  if ¬ ship.all in_bounds then some "Ship coordinates out of bounds."
  else
    let rows := ship.map Prod.fst
    let cols := ship.map Prod.snd
    if ¬ (rows.all (fun r => decide (r = rows.headD 0)) ||
          cols.all (fun c => decide (c = cols.headD 0))) then
      some "Ship is not a straight line."
    else if decide (pySorted intLe rows ≠ intRange (pyMin rows) (pyMax rows + 1)) &&
            decide (pySorted intLe cols ≠ intRange (pyMin cols) (pyMax cols + 1)) then
      some "Ship has gaps in its placement."
    else none

/-- The `for ship in ships` loop of `validate_ship_fleet`: first failing
ship's message, in list order. -/
def firstShipError : List Ship → Option String
  | [] => none
  | s :: rest =>
    match ship_error s with
    | some m => some m
    | none => firstShipError rest

/-- Embeds `utils.validate_ship_fleet`. -/
def validate_ship_fleet (ships : List Ship) : Bool × Option String :=
  if pySorted natLe (ships.map List.length) ≠ pySorted natLe SHIP_SIZES then
    (false, some "Fleet sizes do not match required configuration.")
  else
    match firstShipError ships with
    | some m => (false, some m)
    | none =>
      if ships_touch_or_overlap ships then
        (false, some "Ships cannot touch or overlap.")
      else (true, none)

/-- Functional write of one board cell (the source mutates in place). -/
def setCell (b : Board) (c : Coord) (v : Char) : Board :=
  fun c' => if c' = c then v else b c'

/-- Embeds `GameState.check_if_ship_sunk`: some ship contains the coordinate and
has every cell marked `'H'`. -/
def check_if_ship_sunk (coord : Coord) (ships : List Ship) (board : Board) : Bool :=
  ships.any (fun ship =>
    ship.any (fun c => decide (c = coord)) &&
    ship.all (fun c => decide (board c = 'H')))

/-- The `for ship in ships ... break` search of
`GameState.mark_surrounding_cells_as_miss`: the first ship containing the
coordinate. -/
def findShipContaining (coord : Coord) : List Ship → Option Ship
  | [] => none
  | s :: rest =>
    if s.any (fun c => decide (c = coord)) then some s
    else findShipContaining coord rest

/-- Embeds `GameState.mark_surrounding_cells_as_miss`: if the first ship containing
`coord` is fully hit, every still-empty in-bounds neighbour of any of its
cells becomes `'M'`.  (The source iterates over the neighbour *set*; the
writes are independent, so the result is order-free and equals this map.) -/
def mark_surrounding_cells_as_miss (coord : Coord) (ships : List Ship) (board : Board) :
    Board :=
  match findShipContaining coord ships with
  | none => board
  | some ship =>
    if ship.all (fun c => decide (board c = 'H')) then
      let cells := ship.flatMap get_adjacent_and_diagonal_cells
      fun c => if decide (c ∈ cells) && decide (board c = ' ') then 'M' else board c
    else board

/-- Embeds `GameState.apply_move`.  Returns (result string, ship_destroyed,
attack board after the move); the ship-location board and the fleet are
read-only in the source (no write to them occurs anywhere in the call). -/
def apply_move (board ship_board : Board) (ships : List Ship) (coord : Coord) :
    String × Bool × Board :=
  if ¬ in_bounds coord then ("invalid", false, board)
  else if board coord = 'M' || board coord = 'H' then ("invalid", false, board)
  else if ship_board coord = 'S' then
    let board1 := setCell board coord 'H'
    if check_if_ship_sunk coord ships board1 then
      ("sink", true, mark_surrounding_cells_as_miss coord ships board1)
    else ("hit", false, board1)
  else ("miss", false, setCell board coord 'M')

/-- The bot-AI fields of `GameState` (`bot_mode`, `bot_hit_chain`,
`bot_last_hit`, `bot_orientation`), with the source's value encodings:
the mode is a string, the inferred axis is `None` or a string. -/
structure BotState where
  bot_mode : String
  bot_hit_chain : List Coord
  bot_last_hit : Option Coord
  bot_orient : Option String
deriving DecidableEq, Repr

/-- The fields of `GameState` the claims touch.  `player_board` holds the
bot's attacks on the player's grid, `bot_board` the player's attacks on the
bot's grid, exactly as in the source. -/
structure Game where
  player_ships : List Ship
  bot_ships : List Ship
  player_board : Board
  bot_board : Board
  player_board_ships : Board
  bot_board_ships : Board
  bot : BotState
  turn_number : Nat
  current_turn : String
  player_gets_extra_shot : Bool
  bot_gets_extra_shot : Bool

/-- Embeds `GameState.apply_player_move`: the player attacks the bot's grid; only
`bot_board` is replaced. -/
def apply_player_move (g : Game) (coord : Coord) : String × Bool × Game :=
  let r := apply_move g.bot_board g.bot_board_ships g.bot_ships coord
  (r.1, r.2.1, { g with bot_board := r.2.2 })

/-- Embeds `GameState.apply_bot_move`: the bot attacks the player's grid; only
`player_board` is replaced. -/
def apply_bot_move (g : Game) (coord : Coord) : String × Bool × Game :=
  let r := apply_move g.player_board g.player_board_ships g.player_ships coord
  (r.1, r.2.1, { g with player_board := r.2.2 })

/-- Embeds `GameState.all_player_ships_sunk`. -/
def all_player_ships_sunk (g : Game) : Bool :=
  g.player_ships.all (fun ship => ship.all (fun c => decide (g.player_board c = 'H')))

/-- Embeds `GameState.all_bot_ships_sunk`. -/
def all_bot_ships_sunk (g : Game) : Bool :=
  g.bot_ships.all (fun ship => ship.all (fun c => decide (g.bot_board c = 'H')))

/-- Embeds `GameState.next_turn`. -/
def next_turn (g : Game) : Game :=
  let g1 :=
    if ¬ (g.player_gets_extra_shot || g.bot_gets_extra_shot) then
      { g with turn_number := g.turn_number + 1 }
    else g
  if g1.player_gets_extra_shot then { g1 with current_turn := "player" }
  else if g1.bot_gets_extra_shot then { g1 with current_turn := "bot" }
  else
    { g1 with current_turn := if g1.current_turn = "player" then "bot" else "player" }

/-- Embeds `GameState.infer_orientation` as a value: the orientation computed from
a hit chain of length ≥ 2 (the caller handles shorter chains). -/
def infer_orient_val (chain : List Coord) : Option String :=
  let sorted_hits := pySorted coordLe chain
  if sorted_hits.all (fun h => decide (h.1 = (sorted_hits.headD (0, 0)).1)) then
    some "horizontal"
  else if sorted_hits.all (fun h => decide (h.2 = (sorted_hits.headD (0, 0)).2)) then
    some "vertical"
  else none

/-- Embeds `GameState.infer_orientation`: no change for chains shorter than 2,
otherwise store the computed orientation. -/
def infer_orientation (s : BotState) : BotState :=
  if s.bot_hit_chain.length < 2 then s
  else { s with bot_orient := infer_orient_val s.bot_hit_chain }

/-- Python truthiness of the optional orientation string
(`if self.bot_orientation:`). -/
def orientTruthy (o : Option String) : Bool :=
  match o with
  | none => false
  | some s => s ≠ ""

/-- The direction preference of `GameState.choose_hunt_move`. -/
def hunt_directions (o : Option String) : List (Int × Int) :=
  if o = some "horizontal" then [(0, -1), (0, 1), (-1, 0), (1, 0)]
  else if o = some "vertical" then [(-1, 0), (1, 0), (0, -1), (0, 1)]
  else [(-1, 0), (1, 0), (0, -1), (0, 1)]

/-- One directional probe loop of `choose_hunt_move`: the first offset from
`base` landing in bounds on a still-empty cell. -/
def firstEmptyDir (board : Board) (base : Coord) (dirs : List (Int × Int)) :
    Option Coord :=
  dirs.findSome? (fun d =>
    let n := (base.1 + d.1, base.2 + d.2)
    if in_bounds n && decide (board n = ' ') then some n else none)

/-- The `for hit in self.bot_hit_chain` retry loop of `choose_hunt_move`:
first chain entry (≠ last hit entries are pre-filtered by the caller) that
has an empty neighbour; returns that entry together with the move. -/
def huntFromChain (board : Board) (dirs : List (Int × Int)) :
    List Coord → Option (Coord × Coord)
  | [] => none
  | h :: rest =>
    match firstEmptyDir board h dirs with
    | some n => some (h, n)
    | none => huntFromChain board dirs rest

/-- The `available_moves` comprehension of `GameState.choose_random_move`:
all still-empty cells, row-major. -/
def available_moves (board : Board) : List Coord :=
  (List.range 10).flatMap (fun (r : Nat) =>
    (List.range 10).filterMap (fun (c : Nat) =>
      if board ((r : Int), (c : Int)) = ' ' then some ((r : Int), (c : Int))
      else none))

/-- Embeds `GameState.choose_random_move`.  `pick` is the `random.choice` oracle,
`fb` the `random.randint` fallback pair used when no empty cell remains. -/
def choose_random_move (pick : List Coord → Coord) (fb : Coord) (board : Board) :
    Coord :=
  if available_moves board = [] then fb else pick (available_moves board)

/-- Embeds `GameState.choose_hunt_move`, returning the move and the updated AI
fields (the source mutates `bot_mode`, `bot_last_hit`, the chain). -/
def choose_hunt_move (pick : List Coord → Coord) (fb : Coord) (s : BotState)
    (board : Board) : Coord × BotState :=
  match s.bot_last_hit with
  | none =>
    (choose_random_move pick fb board, { s with bot_mode := "random" })
  | some lh =>
    let dirs := hunt_directions s.bot_orient
    match firstEmptyDir board lh dirs with
    | some n => (n, s)
    | none =>
      match huntFromChain board dirs (s.bot_hit_chain.filter (fun h => h ≠ lh)) with
      | some (h, n) => (n, { s with bot_last_hit := some h })
      | none =>
        (choose_random_move pick fb board,
         { s with bot_mode := "random", bot_hit_chain := [],
                  bot_last_hit := none, bot_orient := none })

/-- The "try left side" loop of `choose_locked_horizontal_move`: offsets 1..4
to the left of `base`, first cell with `col >= 0` that is empty — exactly the
source's check, which tests only the lower edge on this side.  (The source
`break`s once past the edge; the remaining offsets are then also past the
edge, so the plain scan returns the same cell.) -/
def probeLeftH (board : Board) (row base : Int) : Option Coord :=
  ([1, 2, 3, 4] : List Int).findSome? (fun off =>
    let col := base - off
    if decide (0 ≤ col) && decide (board (row, col) = ' ')
    then some (row, col) else none)

/-- The "try right side" loop: offsets 1..4 to the right of `base`, first
cell with `col < BOARD_SIZE` that is empty. -/
def probeRightH (board : Board) (row base : Int) : Option Coord :=
  ([1, 2, 3, 4] : List Int).findSome? (fun off =>
    let col := base + off
    if decide (col < BOARD_SIZE) && decide (board (row, col) = ' ')
    then some (row, col) else none)

/-- The "try above" loop of `choose_locked_vertical_move`. -/
def probeUpV (board : Board) (col base : Int) : Option Coord :=
  ([1, 2, 3, 4] : List Int).findSome? (fun off =>
    let row := base - off
    if decide (0 ≤ row) && decide (board (row, col) = ' ')
    then some (row, col) else none)

/-- The "try below" loop of `choose_locked_vertical_move`. -/
def probeDownV (board : Board) (col base : Int) : Option Coord :=
  ([1, 2, 3, 4] : List Int).findSome? (fun off =>
    let row := base + off
    if decide (row < BOARD_SIZE) && decide (board (row, col) = ' ')
    then some (row, col) else none)

/-- The gap scan of `choose_locked_horizontal_move`: for each consecutive
pair of sorted hits more than one column apart, the first empty cell of the
shared row strictly between them. -/
def gapScanH (board : Board) (row : Int) : List Coord → Option Coord
  | a :: b :: rest =>
    (if decide (b.2 - a.2 > 1) then
      (intRange (a.2 + 1) b.2).findSome? (fun col =>
        if board (row, col) = ' ' then some (row, col) else none)
    else none).orElse
      (fun _ => gapScanH board row (b :: rest))
  | _ => none

/-- The gap scan of `choose_locked_vertical_move`. -/
def gapScanV (board : Board) (col : Int) : List Coord → Option Coord
  | a :: b :: rest =>
    (if decide (b.1 - a.1 > 1) then
      (intRange (a.1 + 1) b.1).findSome? (fun row =>
        if board (row, col) = ' ' then some (row, col) else none)
    else none).orElse
      (fun _ => gapScanV board col (b :: rest))
  | _ => none

/-- Embeds `GameState.choose_locked_horizontal_move`. -/
def choose_locked_horizontal_move (pick : List Coord → Coord) (fb : Coord)
    (sorted_hits : List Coord) (s : BotState) (board : Board) : Coord × BotState :=
  let row := (sorted_hits.headD (0, 0)).1
  let left_col := pyMin (sorted_hits.map Prod.snd)
  let right_col := pyMax (sorted_hits.map Prod.snd)
  match probeLeftH board row left_col with
  | some m => (m, s)
  | none =>
    match probeRightH board row right_col with
    | some m => (m, s)
    | none =>
      match gapScanH board row sorted_hits with
      | some m => (m, s)
      | none => choose_hunt_move pick fb { s with bot_mode := "hunt" } board

/-- Embeds `GameState.choose_locked_vertical_move`. -/
def choose_locked_vertical_move (pick : List Coord → Coord) (fb : Coord)
    (sorted_hits : List Coord) (s : BotState) (board : Board) : Coord × BotState :=
  let col := (sorted_hits.headD (0, 0)).2
  let top_row := pyMin (sorted_hits.map Prod.fst)
  let bottom_row := pyMax (sorted_hits.map Prod.fst)
  match probeUpV board col top_row with
  | some m => (m, s)
  | none =>
    match probeDownV board col bottom_row with
    | some m => (m, s)
    | none =>
      match gapScanV board col sorted_hits with
      | some m => (m, s)
      | none => choose_hunt_move pick fb { s with bot_mode := "hunt" } board

/-- Embeds `GameState.choose_locked_move`.  The source's one self-recursion (after
a successful orientation inference) lands directly in the horizontal or
vertical branch with the chain unchanged, so it is unfolded here. -/
def choose_locked_move (pick : List Coord → Coord) (fb : Coord) (s : BotState)
    (board : Board) : Coord × BotState :=
  if s.bot_hit_chain.length < 2 then
    choose_hunt_move pick fb { s with bot_mode := "hunt" } board
  else
    let sorted_hits := pySorted coordLe s.bot_hit_chain
    if s.bot_orient = some "horizontal" then
      choose_locked_horizontal_move pick fb sorted_hits s board
    else if s.bot_orient = some "vertical" then
      choose_locked_vertical_move pick fb sorted_hits s board
    else
      let s1 := infer_orientation s
      if s1.bot_orient = some "horizontal" then
        choose_locked_horizontal_move pick fb sorted_hits s1 board
      else if s1.bot_orient = some "vertical" then
        choose_locked_vertical_move pick fb sorted_hits s1 board
      else
        choose_hunt_move pick fb { s1 with bot_mode := "hunt" } board

/-- Embeds `GameState.choose_bot_move`. -/
def choose_bot_move (pick : List Coord → Coord) (fb : Coord) (s : BotState)
    (board : Board) : Coord × BotState :=
  if s.bot_mode = "random" then (choose_random_move pick fb board, s)
  else if s.bot_mode = "hunt" then choose_hunt_move pick fb s board
  else if s.bot_mode = "locked" then choose_locked_move pick fb s board
  else (choose_random_move pick fb board, s)

/-- The AI bookkeeping of `GameState.bot_take_turn` after the move result is
known (lines 471–534 of the source, with the two sink-clearing sites merged:
both clear the chain, last hit and orientation, the second also sets the
mode to random). -/
def bot_ai_update (s : BotState) (move : Coord) (result : String) : BotState :=
  if result = "hit" then
    if s.bot_hit_chain = [] then
      { s with bot_hit_chain := [move], bot_last_hit := some move,
               bot_mode := "hunt" }
    else
      let is_same_ship := s.bot_hit_chain.any (fun hit =>
        (decide ((hit.1 - move.1).natAbs = 1) && decide (hit.2 = move.2)) ||
        (decide ((hit.2 - move.2).natAbs = 1) && decide (hit.1 = move.1)))
      if is_same_ship && ¬ decide (move ∈ s.bot_hit_chain) then
        let s1 := { s with bot_hit_chain := s.bot_hit_chain ++ [move],
                           bot_last_hit := some move }
        if 2 ≤ s1.bot_hit_chain.length then
          let s2 := infer_orientation s1
          if orientTruthy s2.bot_orient then { s2 with bot_mode := "locked" } else s2
        else s1
      else
        { s with bot_hit_chain := [move], bot_last_hit := some move,
                 bot_mode := "hunt", bot_orient := none }
  else if result = "sink" then
    { s with bot_hit_chain := [], bot_last_hit := none, bot_orient := none,
             bot_mode := "random" }
  else if result = "miss" then
    if s.bot_mode = "hunt" && decide (2 ≤ s.bot_hit_chain.length) then
      let s2 := infer_orientation s
      if orientTruthy s2.bot_orient then { s2 with bot_mode := "locked" } else s2
    else s
  else s

/-- Embeds `GameState.bot_take_turn`. -/
def bot_take_turn (pick : List Coord → Coord) (fb : Coord) (g : Game) :
    Coord × String × Game :=
  let ms := choose_bot_move pick fb g.bot g.player_board
  let r := apply_move g.player_board g.player_board_ships g.player_ships ms.1
  let extra := r.1 = "hit" || r.1 = "sink"
  (ms.1, r.1,
   { g with player_board := r.2.2,
            bot := bot_ai_update ms.2 ms.1 r.1,
            bot_gets_extra_shot := extra })

/-- Embeds `GameState.player_take_turn`. -/
def player_take_turn (g : Game) (coord : Coord) : Coord × String × Game :=
  let r := apply_move g.bot_board g.bot_board_ships g.bot_ships coord
  (coord, r.1,
   { g with bot_board := r.2.2,
            player_gets_extra_shot := r.1 = "hit" || r.1 = "sink" })

/-! Concrete inputs used by the claim theorems and witnesses. -/

/-- The all-empty attack board at game start. -/
def emptyB : Board := fun _ => ' '

/-- Ship-location board of a fleet, as `GameState.create_ship_board` builds
it: `'S'` on every in-bounds ship cell. -/
def create_ship_board (ships : List Ship) : Board :=
  fun c => if ships.any (fun ship => ship.any (fun p => in_bounds p && decide (p = c)))
           then 'S' else ' '

/-- The freshly constructed AI state of `GameState.__init__`. -/
def initBot : BotState :=
  { bot_mode := "random", bot_hit_chain := [], bot_last_hit := none,
    bot_orient := none }

/-- A fleet with the required ship sizes, all ships straight, contiguous and
in-bounds, no two ships touching — except that the last two size-1 ships are
the *same* cell (4,7): two distinct ships sharing a cell. -/
def overlappingFleet : List Ship :=
  [ [(0, 0), (0, 1), (0, 2), (0, 3)],
    [(0, 5), (0, 6), (0, 7)],
    [(2, 0), (2, 1), (2, 2)],
    [(2, 4), (2, 5)],
    [(2, 7), (2, 8)],
    [(4, 0), (4, 1)],
    [(4, 3)],
    [(4, 5)],
    [(4, 7)],
    [(4, 7)] ]

/-- The size-3 horizontal ship of the C6 scenario: row 4, columns 2–4. -/
def shipC6 : Ship := [(4, 2), (4, 3), (4, 4)]

/-- A deterministic `random.choice` oracle: the head of the list. -/
def pick0 : List Coord → Coord := fun l => l.headD (0, 0)

/-- Locked-mode AI state with hit set {(4,2), (4,4)} and inferred
horizontal orientation. -/
def lockedS : BotState :=
  { bot_mode := "locked", bot_hit_chain := [(4, 2), (4, 4)],
    bot_last_hit := some (4, 4), bot_orient := some "horizontal" }

/-- Board with hits recorded at (4,2) and (4,4) only. -/
def boardHits24 : Board :=
  fun c => if c = ((4 : Int), (2 : Int)) ∨ c = ((4 : Int), (4 : Int)) then 'H' else ' '

/-- Same, with the left end already probed: (4,1) and (4,0) are misses. -/
def boardLeftDone : Board :=
  fun c => if c = ((4 : Int), (2 : Int)) ∨ c = ((4 : Int), (4 : Int)) then 'H'
           else if c = ((4 : Int), (1 : Int)) ∨ c = ((4 : Int), (0 : Int)) then 'M'
           else ' '

/-- Same, with both ends exhausted: columns 0,1 and 5–8 of row 4 resolved. -/
def boardEndsDone : Board :=
  fun c => if c = ((4 : Int), (2 : Int)) ∨ c = ((4 : Int), (4 : Int)) then 'H'
           else if c.1 = (4 : Int) ∧ (c.2 = 0 ∨ c.2 = 1 ∨ c.2 = 5 ∨ c.2 = 6 ∨
                                       c.2 = 7 ∨ c.2 = 8) then 'M'
           else ' '

/-- Spec-side predicate: no two distinct ships of the fleet share a cell. -/
def PairwiseDisjoint (ships : List Ship) : Prop :=
  List.Pairwise (fun s t => ∀ c, c ∈ s → c ∉ t) ships

/-- A well-formed attack board only holds empty, hit or miss cells. -/
def WellFormedAttack (b : Board) : Prop :=
  ∀ c, b c = ' ' ∨ b c = 'H' ∨ b c = 'M'

/-- AI state holding a two-hit horizontal chain, used as witness input. -/
def huntS2 : BotState :=
  { bot_mode := "hunt", bot_hit_chain := [(0, 0), (0, 1)],
    bot_last_hit := some (0, 1), bot_orient := none }

/-- A tiny concrete game used as witness input: one size-1 ship per side at
(0,0), every cell of both attack boards already hit. -/
def gameEx : Game :=
  { player_ships := [[(0, 0)]], bot_ships := [[(0, 0)]],
    player_board := fun _ => 'H', bot_board := fun _ => 'H',
    player_board_ships := create_ship_board [[(0, 0)]],
    bot_board_ships := create_ship_board [[(0, 0)]],
    bot := initBot, turn_number := 0, current_turn := "player",
    player_gets_extra_shot := false, bot_gets_extra_shot := false }

/-- A fresh concrete game with the C6 fleet on the player side, used as
witness input: no cell attacked yet. -/
def gameC6 : Game :=
  { player_ships := [shipC6], bot_ships := [shipC6],
    player_board := emptyB, bot_board := emptyB,
    player_board_ships := create_ship_board [shipC6],
    bot_board_ships := create_ship_board [shipC6],
    bot := initBot, turn_number := 0, current_turn := "bot",
    player_gets_extra_shot := false, bot_gets_extra_shot := false }

/-! ## Helper lemmas -/

theorem insertLe_perm {α : Type} (le : α → α → Bool) (x : α) :
    ∀ l : List α, (insertLe le x l).Perm (x :: l) := by
  intro l
  induction l with
  | nil => simp [insertLe]
  | cons a rest ih =>
    simp only [insertLe]
    by_cases h : le a x
    · simp only [if_pos h]
      exact (ih.cons a).trans (List.Perm.swap x a rest)
    · simp only [if_neg h]
      exact List.Perm.refl _

theorem pySorted_perm {α : Type} (le : α → α → Bool) (l : List α) :
    (pySorted le l).Perm l := by
  induction l with
  | nil => simp [pySorted]
  | cons a rest ih =>
    have h : pySorted le (a :: rest) = insertLe le a (pySorted le rest) := rfl
    rw [h]
    exact (insertLe_perm le a _).trans (ih.cons a)

theorem mem_pySorted {α : Type} {le : α → α → Bool} {l : List α} {a : α} :
    a ∈ pySorted le l ↔ a ∈ l :=
  (pySorted_perm le l).mem_iff

theorem pySorted_length {α : Type} (le : α → α → Bool) (l : List α) :
    (pySorted le l).length = l.length :=
  (pySorted_perm le l).length_eq

theorem headD_mem {α : Type} {l : List α} (h : l ≠ []) (d : α) : l.headD d ∈ l := by
  cases l with
  | nil => exact absurd rfl h
  | cons a t => simp

theorem foldl_min_mem (xs : List Int) : ∀ x : Int, xs.foldl min x ∈ x :: xs := by
  induction xs with
  | nil => intro x; simp
  | cons a t ih =>
    intro x
    simp only [List.foldl_cons]
    have hmem := ih (min x a)
    rcases List.mem_cons.mp hmem with h1 | h1
    · rw [h1]
      rcases min_choice x a with h2 | h2 <;> rw [h2] <;> simp
    · simp [h1]

theorem foldl_max_mem (xs : List Int) : ∀ x : Int, xs.foldl max x ∈ x :: xs := by
  induction xs with
  | nil => intro x; simp
  | cons a t ih =>
    intro x
    simp only [List.foldl_cons]
    have hmem := ih (max x a)
    rcases List.mem_cons.mp hmem with h1 | h1
    · rw [h1]
      rcases max_choice x a with h2 | h2 <;> rw [h2] <;> simp
    · simp [h1]

theorem pyMin_mem {l : List Int} (h : l ≠ []) : pyMin l ∈ l := by
  cases l with
  | nil => exact absurd rfl h
  | cons x xs => exact foldl_min_mem xs x

theorem pyMax_mem {l : List Int} (h : l ≠ []) : pyMax l ∈ l := by
  cases l with
  | nil => exact absurd rfl h
  | cons x xs => exact foldl_max_mem xs x

theorem intRange_bounds {lo hi c : Int} (h : c ∈ intRange lo hi) :
    lo ≤ c ∧ c < hi := by
  unfold intRange at h
  simp only [List.mem_map, List.mem_range] at h
  obtain ⟨i, hi', rfl⟩ := h
  omega

theorem in_bounds_iff {c : Coord} :
    in_bounds c = true ↔ 0 ≤ c.1 ∧ c.1 < 10 ∧ 0 ≤ c.2 ∧ c.2 < 10 := by
  simp only [in_bounds, BOARD_SIZE, Bool.and_eq_true, decide_eq_true_eq]
  tauto

theorem mem_available_moves {board : Board} {p : Coord} :
    p ∈ available_moves board ↔ in_bounds p = true ∧ board p = ' ' := by
  unfold available_moves
  simp only [List.mem_flatMap, List.mem_filterMap, List.mem_range]
  constructor
  · rintro ⟨r, hr, c, hc, hcond⟩
    by_cases hb : board ((r : Int), (c : Int)) = ' '
    · rw [if_pos hb] at hcond
      cases hcond
      refine ⟨in_bounds_iff.mpr ?_, hb⟩
      refine ⟨?_, ?_, ?_, ?_⟩ <;> simp <;> omega
    · rw [if_neg hb] at hcond
      cases hcond
  · rintro ⟨hb, hsp⟩
    obtain ⟨a, b⟩ := p
    obtain ⟨h1, h2, h3, h4⟩ := in_bounds_iff.mp hb
    simp only at h1 h2 h3 h4
    have ha : ((a.toNat : Int)) = a := Int.toNat_of_nonneg h1
    have hb' : ((b.toNat : Int)) = b := Int.toNat_of_nonneg h3
    refine ⟨a.toNat, by omega, b.toNat, by omega, ?_⟩
    rw [ha, hb', if_pos hsp]

theorem infer_orient_val_row {chain : List Coord} (hne : chain ≠ [])
    (hrow : ∀ p ∈ chain, ∀ q ∈ chain, p.1 = q.1) :
    infer_orient_val chain = some "horizontal" := by
  unfold infer_orient_val
  dsimp only
  have hsne : pySorted coordLe chain ≠ [] := by
    intro h0
    have := pySorted_length coordLe chain
    rw [h0] at this
    exact hne (List.eq_nil_of_length_eq_zero this.symm)
  have hhd : (pySorted coordLe chain).headD (0, 0) ∈ chain :=
    mem_pySorted.mp (headD_mem hsne (0, 0))
  have hastrue : ((pySorted coordLe chain).all
      (fun h => decide (h.1 = ((pySorted coordLe chain).headD (0, 0)).1))) = true := by
    rw [List.all_eq_true]
    intro x hx
    simpa using hrow x (mem_pySorted.mp hx) _ hhd
  rw [hastrue]
  rfl

theorem all_fst_eq_headD {chain : List Coord}
    (h : ((pySorted coordLe chain).all
      (fun h => decide (h.1 = ((pySorted coordLe chain).headD (0, 0)).1))) = true) :
    ∀ p ∈ chain, ∀ q ∈ chain, p.1 = q.1 := by
  rw [List.all_eq_true] at h
  intro p hp q hq
  have h1 := h p (mem_pySorted.mpr hp)
  have h2 := h q (mem_pySorted.mpr hq)
  simp only [decide_eq_true_eq] at h1 h2
  rw [h1, h2]

theorem all_snd_eq_headD {chain : List Coord}
    (h : ((pySorted coordLe chain).all
      (fun h => decide (h.2 = ((pySorted coordLe chain).headD (0, 0)).2))) = true) :
    ∀ p ∈ chain, ∀ q ∈ chain, p.2 = q.2 := by
  rw [List.all_eq_true] at h
  intro p hp q hq
  have h1 := h p (mem_pySorted.mpr hp)
  have h2 := h q (mem_pySorted.mpr hq)
  simp only [decide_eq_true_eq] at h1 h2
  rw [h1, h2]

theorem infer_orient_val_col {chain : List Coord} (hlen : 2 ≤ chain.length)
    (hnd : chain.Nodup)
    (hcol : ∀ p ∈ chain, ∀ q ∈ chain, p.2 = q.2) :
    infer_orient_val chain = some "vertical" := by
  have hne : chain ≠ [] := by
    intro h0; rw [h0] at hlen; simp at hlen
  -- two distinct leading elements with equal column must differ in row
  obtain ⟨x, t, rfl⟩ : ∃ x t, chain = x :: t := by
    cases chain with
    | nil => exact absurd rfl hne
    | cons x t => exact ⟨x, t, rfl⟩
  obtain ⟨y, r, rfl⟩ : ∃ y r, t = y :: r := by
    cases t with
    | nil => simp at hlen
    | cons y r => exact ⟨y, r, rfl⟩
  have hxy : x ≠ y := by
    intro h0
    rw [List.nodup_cons] at hnd
    exact hnd.1 (h0 ▸ List.mem_cons_self y r)
  have hx2 : x.2 = y.2 := hcol x (by simp) y (by simp)
  have hx1 : x.1 ≠ y.1 := by
    intro h0
    exact hxy (Prod.ext h0 hx2)
  unfold infer_orient_val
  dsimp only
  have hrowfalse : ((pySorted coordLe (x :: y :: r)).all
      (fun h => decide (h.1 = ((pySorted coordLe (x :: y :: r)).headD (0, 0)).1))) = false := by
    by_contra hc
    have htrue := eq_true_of_ne_false hc
    exact hx1 (all_fst_eq_headD htrue x (by simp) y (by simp))
  have hsne : pySorted coordLe (x :: y :: r) ≠ [] := by
    intro h0
    have := pySorted_length coordLe (x :: y :: r)
    rw [h0] at this
    simp at this
  have hhd : (pySorted coordLe (x :: y :: r)).headD (0, 0) ∈ x :: y :: r :=
    mem_pySorted.mp (headD_mem hsne (0, 0))
  have hcoltrue : ((pySorted coordLe (x :: y :: r)).all
      (fun h => decide (h.2 = ((pySorted coordLe (x :: y :: r)).headD (0, 0)).2))) = true := by
    rw [List.all_eq_true]
    intro p hp
    simpa using hcol p (mem_pySorted.mp hp) _ hhd
  rw [hrowfalse]
  rw [hcoltrue]
  rfl

theorem infer_orient_val_none {chain : List Coord}
    (hnrow : ¬ ∀ p ∈ chain, ∀ q ∈ chain, p.1 = q.1)
    (hncol : ¬ ∀ p ∈ chain, ∀ q ∈ chain, p.2 = q.2) :
    infer_orient_val chain = none := by
  unfold infer_orient_val
  dsimp only
  have hrowfalse : ((pySorted coordLe chain).all
      (fun h => decide (h.1 = ((pySorted coordLe chain).headD (0, 0)).1))) = false := by
    by_contra hc
    exact hnrow (all_fst_eq_headD (eq_true_of_ne_false hc))
  have hcolfalse : ((pySorted coordLe chain).all
      (fun h => decide (h.2 = ((pySorted coordLe chain).headD (0, 0)).2))) = false := by
    by_contra hc
    exact hncol (all_snd_eq_headD (eq_true_of_ne_false hc))
  rw [hrowfalse]
  rw [hcolfalse]
  rfl

/-! ## Claim theorems -/

/-- **C4** Win detection exactness: `all_bot_ships_sunk` (and symmetrically
`all_player_ships_sunk`) returns `true` iff every coordinate of every ship
of that side's fleet has attack-board state `'H'`; hence it is `false`
whenever even one ship has any coordinate whose state is not `'H'`. -/
theorem all_ships_sunk_iff_every_coord_hit (g : Game) :
    (all_bot_ships_sunk g = true ↔
       ∀ ship ∈ g.bot_ships, ∀ c ∈ ship, g.bot_board c = 'H') ∧
    (all_player_ships_sunk g = true ↔
       ∀ ship ∈ g.player_ships, ∀ c ∈ ship, g.player_board c = 'H') := by
  constructor <;> simp [all_bot_ships_sunk, all_player_ships_sunk, List.all_eq_true]

/-- Witness for C4 at a concrete game: a fully hit board is reported sunk. -/
theorem all_ships_sunk_iff_every_coord_hit_witness :
    all_bot_ships_sunk gameEx = true :=
  (all_ships_sunk_iff_every_coord_hit gameEx).1.mpr
    (by intro ship hs c hc; rfl)

/-- **C7** Orientation inference: for a chain of fewer than 2 coordinates
`infer_orientation` leaves the state unchanged; for a duplicate-free chain
of ≥ 2 coordinates it resolves to `"horizontal"` when all coordinates share
a row, to `"vertical"` when all share a column, and to `none` when neither
holds. -/
theorem infer_orientation_spec (s : BotState) :
    (s.bot_hit_chain.length < 2 → infer_orientation s = s) ∧
    (2 ≤ s.bot_hit_chain.length → s.bot_hit_chain.Nodup →
      ((∀ p ∈ s.bot_hit_chain, ∀ q ∈ s.bot_hit_chain, p.1 = q.1) →
        (infer_orientation s).bot_orient = some "horizontal") ∧
      ((∀ p ∈ s.bot_hit_chain, ∀ q ∈ s.bot_hit_chain, p.2 = q.2) →
        (infer_orientation s).bot_orient = some "vertical") ∧
      ((¬ ∀ p ∈ s.bot_hit_chain, ∀ q ∈ s.bot_hit_chain, p.1 = q.1) →
       (¬ ∀ p ∈ s.bot_hit_chain, ∀ q ∈ s.bot_hit_chain, p.2 = q.2) →
        (infer_orientation s).bot_orient = none)) := by
  constructor
  · intro hlen
    unfold infer_orientation
    rw [if_pos hlen]
  · intro hlen hnd
    have hlen' : ¬ s.bot_hit_chain.length < 2 := by omega
    have hne : s.bot_hit_chain ≠ [] := by
      intro h0; rw [h0] at hlen; simp at hlen
    have hval : (infer_orientation s).bot_orient = infer_orient_val s.bot_hit_chain := by
      unfold infer_orientation
      rw [if_neg hlen']
    refine ⟨?_, ?_, ?_⟩
    · intro hrow
      rw [hval]
      exact infer_orient_val_row hne hrow
    · intro hcol
      rw [hval]
      exact infer_orient_val_col hlen hnd hcol
    · intro hnrow hncol
      rw [hval]
      exact infer_orient_val_none hnrow hncol

/-- Witness for C7: a two-hit same-row chain resolves to horizontal. -/
theorem infer_orientation_spec_witness :
    (infer_orientation huntS2).bot_orient = some "horizontal" :=
  ((infer_orientation_spec huntS2).2 (by decide) (by decide)).1 (by decide)

theorem apply_move_oob (board sb : Board) (ships : List Ship) (coord : Coord)
    (h : ¬ in_bounds coord = true) :
    apply_move board sb ships coord = ("invalid", false, board) := by
  unfold apply_move
  rw [if_pos h]

theorem apply_move_already (board sb : Board) (ships : List Ship) (coord : Coord)
    (h1 : in_bounds coord = true) (h2 : board coord = 'M' ∨ board coord = 'H') :
    apply_move board sb ships coord = ("invalid", false, board) := by
  unfold apply_move
  rw [if_neg (not_not_intro h1)]
  have hc : (decide (board coord = 'M') || decide (board coord = 'H')) = true := by
    rcases h2 with h | h <;> simp [h]
  rw [if_pos hc]

theorem apply_move_sink (board sb : Board) (ships : List Ship) (coord : Coord)
    (h1 : in_bounds coord = true) (h2 : ¬ (board coord = 'M' ∨ board coord = 'H'))
    (h3 : sb coord = 'S')
    (h4 : check_if_ship_sunk coord ships (setCell board coord 'H') = true) :
    apply_move board sb ships coord =
      ("sink", true, mark_surrounding_cells_as_miss coord ships (setCell board coord 'H')) := by
  unfold apply_move
  rw [if_neg (not_not_intro h1)]
  push_neg at h2
  have hc : (decide (board coord = 'M') || decide (board coord = 'H')) = false := by
    simp [h2.1, h2.2]
  rw [hc]
  rw [if_neg (by simp)]
  rw [if_pos h3]
  dsimp only
  rw [if_pos h4]

theorem apply_move_hit (board sb : Board) (ships : List Ship) (coord : Coord)
    (h1 : in_bounds coord = true) (h2 : ¬ (board coord = 'M' ∨ board coord = 'H'))
    (h3 : sb coord = 'S')
    (h4 : check_if_ship_sunk coord ships (setCell board coord 'H') = false) :
    apply_move board sb ships coord = ("hit", false, setCell board coord 'H') := by
  unfold apply_move
  rw [if_neg (not_not_intro h1)]
  push_neg at h2
  have hc : (decide (board coord = 'M') || decide (board coord = 'H')) = false := by
    simp [h2.1, h2.2]
  rw [hc]
  rw [if_neg (by simp)]
  rw [if_pos h3]
  dsimp only
  rw [if_neg (by simp [h4])]

theorem apply_move_miss (board sb : Board) (ships : List Ship) (coord : Coord)
    (h1 : in_bounds coord = true) (h2 : ¬ (board coord = 'M' ∨ board coord = 'H'))
    (h3 : ¬ sb coord = 'S') :
    apply_move board sb ships coord = ("miss", false, setCell board coord 'M') := by
  unfold apply_move
  rw [if_neg (not_not_intro h1)]
  push_neg at h2
  have hc : (decide (board coord = 'M') || decide (board coord = 'H')) = false := by
    simp [h2.1, h2.2]
  rw [hc]
  rw [if_neg (by simp)]
  rw [if_neg h3]

theorem setCell_same (b : Board) (c : Coord) (v : Char) : setCell b c v c = v := by
  unfold setCell
  rw [if_pos rfl]

theorem setCell_other (b : Board) (c c' : Coord) (v : Char) (h : c' ≠ c) :
    setCell b c v c' = b c' := by
  unfold setCell
  rw [if_neg h]

theorem mark_surrounding_keep {coord : Coord} {ships : List Ship} {b : Board}
    {c : Coord} (h : b c ≠ ' ') :
    mark_surrounding_cells_as_miss coord ships b c = b c := by
  unfold mark_surrounding_cells_as_miss
  cases hf : findShipContaining coord ships with
  | none => rfl
  | some ship =>
    simp only [hf]
    by_cases hall : (ship.all (fun x => decide (b x = 'H'))) = true
    · rw [if_pos hall]
      have hc : decide (b c = ' ') = false := decide_eq_false h
      simp [hc]
    · rw [if_neg hall]

/-- **C2** Move rejection: `apply_move` returns `"invalid"` iff the attacked
coordinate is out of bounds or the attack-board cell there is already `'H'`
or `'M'`; on `"invalid"` the attack board is returned unchanged; hence
applying the same coordinate twice in succession yields `"invalid"` on the
second application regardless of the first result. -/
theorem apply_move_invalid_spec (board ship_board : Board) (ships : List Ship)
    (coord : Coord) :
    ((apply_move board ship_board ships coord).1 = "invalid" ↔
       (in_bounds coord = false ∨ board coord = 'M' ∨ board coord = 'H')) ∧
    ((apply_move board ship_board ships coord).1 = "invalid" →
       (apply_move board ship_board ships coord).2.2 = board) ∧
    (apply_move ((apply_move board ship_board ships coord).2.2) ship_board ships
        coord).1 = "invalid" := by
  by_cases h1 : in_bounds coord = true
  · by_cases h2 : board coord = 'M' ∨ board coord = 'H'
    · have e := apply_move_already board ship_board ships coord h1 h2
      refine ⟨?_, ?_, ?_⟩
      · rw [e]
        exact ⟨fun _ => Or.inr h2, fun _ => rfl⟩
      · intro _
        rw [e]
      · rw [e]
        show (apply_move board ship_board ships coord).1 = "invalid"
        rw [e]
    · by_cases h3 : ship_board coord = 'S'
      · by_cases h4 : check_if_ship_sunk coord ships (setCell board coord 'H') = true
        · have e := apply_move_sink board ship_board ships coord h1 h2 h3 h4
          have hH : (apply_move board ship_board ships coord).2.2 coord = 'H' := by
            rw [e]
            show mark_surrounding_cells_as_miss coord ships
              (setCell board coord 'H') coord = 'H'
            rw [mark_surrounding_keep (by rw [setCell_same]; decide)]
            exact setCell_same board coord 'H'
          refine ⟨?_, ?_, ?_⟩
          · rw [e]
            constructor
            · intro hx
              simp at hx
            · intro hx
              rcases hx with hx | hx | hx
              · rw [h1] at hx
                cases hx
              · exact absurd (Or.inl hx) h2
              · exact absurd (Or.inr hx) h2
          · intro hx
            rw [e] at hx
            simp at hx
          · rw [apply_move_already _ ship_board ships coord h1 (Or.inr hH)]
        · have h4' := Bool.eq_false_iff.mpr h4
          have e := apply_move_hit board ship_board ships coord h1 h2 h3 h4'
          have hH : (apply_move board ship_board ships coord).2.2 coord = 'H' := by
            rw [e]
            exact setCell_same board coord 'H'
          refine ⟨?_, ?_, ?_⟩
          · rw [e]
            constructor
            · intro hx
              simp at hx
            · intro hx
              rcases hx with hx | hx | hx
              · rw [h1] at hx
                cases hx
              · exact absurd (Or.inl hx) h2
              · exact absurd (Or.inr hx) h2
          · intro hx
            rw [e] at hx
            simp at hx
          · rw [apply_move_already _ ship_board ships coord h1 (Or.inr hH)]
      · have e := apply_move_miss board ship_board ships coord h1 h2 h3
        have hM : (apply_move board ship_board ships coord).2.2 coord = 'M' := by
          rw [e]
          exact setCell_same board coord 'M'
        refine ⟨?_, ?_, ?_⟩
        · rw [e]
          constructor
          · intro hx
            simp at hx
          · intro hx
            rcases hx with hx | hx | hx
            · rw [h1] at hx
              cases hx
            · exact absurd (Or.inl hx) h2
            · exact absurd (Or.inr hx) h2
        · intro hx
          rw [e] at hx
          simp at hx
        · rw [apply_move_already _ ship_board ships coord h1 (Or.inl hM)]
  · have e := apply_move_oob board ship_board ships coord h1
    refine ⟨?_, ?_, ?_⟩
    · rw [e]
      exact ⟨fun _ => Or.inl (Bool.eq_false_iff.mpr h1), fun _ => rfl⟩
    · intro _
      rw [e]
    · rw [e]
      show (apply_move board ship_board ships coord).1 = "invalid"
      rw [e]

/-- Witness for C2: attacking (0,0) twice on an initially empty board is
invalid the second time. -/
theorem apply_move_invalid_spec_witness :
    (apply_move ((apply_move emptyB emptyB [] (0, 0)).2.2) emptyB []
        (0, 0)).1 = "invalid" :=
  (apply_move_invalid_spec emptyB emptyB [] (0, 0)).2.2

theorem apply_move_frame_aux (board sb : Board) (ships : List Ship) (coord c : Coord)
    (hres : (apply_move board sb ships coord).1 = "hit" ∨
            (apply_move board sb ships coord).1 = "miss")
    (hc : c ≠ coord) :
    (apply_move board sb ships coord).2.2 c = board c := by
  by_cases h1 : in_bounds coord = true
  · by_cases h2 : board coord = 'M' ∨ board coord = 'H'
    · rw [apply_move_already board sb ships coord h1 h2] at hres
      rcases hres with hx | hx <;> simp at hx
    · by_cases h3 : sb coord = 'S'
      · by_cases h4 : check_if_ship_sunk coord ships (setCell board coord 'H') = true
        · rw [apply_move_sink board sb ships coord h1 h2 h3 h4] at hres
          rcases hres with hx | hx <;> simp at hx
        · rw [apply_move_hit board sb ships coord h1 h2 h3 (Bool.eq_false_iff.mpr h4)]
          exact setCell_other board coord c 'H' hc
      · rw [apply_move_miss board sb ships coord h1 h2 h3]
        exact setCell_other board coord c 'M' hc
  · rw [apply_move_oob board sb ships coord h1] at hres
    rcases hres with hx | hx <;> simp at hx

/-- **C10** Frame property of move resolution: when a move resolves to hit
or miss (not sink), the only attack-board cell that changes is the attacked
coordinate; and for every result the ship-location board, the fleet, and
the other side's attack board are untouched. -/
theorem move_resolution_frame (g : Game) (coord : Coord) :
    (((apply_player_move g coord).1 = "hit" ∨ (apply_player_move g coord).1 = "miss") →
       ∀ c : Coord, c ≠ coord →
         (apply_player_move g coord).2.2.bot_board c = g.bot_board c) ∧
    (((apply_bot_move g coord).1 = "hit" ∨ (apply_bot_move g coord).1 = "miss") →
       ∀ c : Coord, c ≠ coord →
         (apply_bot_move g coord).2.2.player_board c = g.player_board c) ∧
    ((apply_player_move g coord).2.2.bot_board_ships = g.bot_board_ships ∧
     (apply_player_move g coord).2.2.bot_ships = g.bot_ships ∧
     (apply_player_move g coord).2.2.player_board = g.player_board) ∧
    ((apply_bot_move g coord).2.2.player_board_ships = g.player_board_ships ∧
     (apply_bot_move g coord).2.2.player_ships = g.player_ships ∧
     (apply_bot_move g coord).2.2.bot_board = g.bot_board) := by
  refine ⟨?_, ?_, ⟨rfl, rfl, rfl⟩, ⟨rfl, rfl, rfl⟩⟩
  · intro hres c hc
    exact apply_move_frame_aux g.bot_board g.bot_board_ships g.bot_ships coord c hres hc
  · intro hres c hc
    exact apply_move_frame_aux g.player_board g.player_board_ships g.player_ships
      coord c hres hc

/-- Witness for C10: a miss at (0,0) leaves (5,5) unchanged. -/
theorem move_resolution_frame_witness :
    (apply_player_move gameC6 (0, 0)).2.2.bot_board (5, 5) =
      gameC6.bot_board (5, 5) :=
  (move_resolution_frame gameC6 (0, 0)).1 (by decide) (5, 5) (by decide)

/-- **C1** (evaluation at the failing input): `validate_ship_fleet` returns
Valid on `overlappingFleet`, although its ninth and tenth ships — distinct
ships of the fleet — are both the single cell (4,7), so two distinct ships
share a cell and the claim requires the fleet to be rejected.  The skip
condition of `ships_touch_or_overlap` (`if coord in other_ship: continue`,
commented "Skip checking the ship itself") skips every ship containing the
coordinate, so coinciding ships are never compared. -/
theorem validate_accepts_overlapping_fleet :
    validate_ship_fleet overlappingFleet = (true, none) ∧
    overlappingFleet.getD 8 [] = [((4 : Int), (7 : Int))] ∧
    overlappingFleet.getD 9 [] = [((4 : Int), (7 : Int))] := by
  refine ⟨by decide, rfl, rfl⟩

/-- **C6** (counterexample): with the size-3 horizontal ship on row 4,
columns 2–4, both (4,2) and (4,4) are true hits, yet after the AI processes
the hit at (4,2) and then the non-4-adjacent hit at (4,4) its orientation
is *not* Horizontal (the chain was reset). -/
theorem two_nonadjacent_hits_do_not_infer_horizontal :
    (apply_move emptyB (create_ship_board [shipC6]) [shipC6] (4, 2)).1 = "hit" ∧
    (apply_move (apply_move emptyB (create_ship_board [shipC6]) [shipC6] (4, 2)).2.2
        (create_ship_board [shipC6]) [shipC6] (4, 4)).1 = "hit" ∧
    (bot_ai_update (bot_ai_update initBot (4, 2) "hit") (4, 4) "hit").bot_orient ≠
      some "horizontal" := by
  refine ⟨by decide, by decide, by decide⟩

/-- **C6** (amended): the second, non-4-adjacent hit is treated as a hit on
a different ship — the chain resets to [(4,4)], mode Hunt, orientation
cleared.  Separately, when Locked mode does hold the hit set {(4,2),(4,4)}
with Horizontal orientation, selection probes column 1 first, then column 5,
and considers the gap column 3 only after both ends are exhausted. -/
theorem nonadjacent_hit_resets_chain_and_locked_probe_order :
    ((bot_ai_update (bot_ai_update initBot (4, 2) "hit") (4, 4) "hit").bot_hit_chain
        = [(4, 4)] ∧
     (bot_ai_update (bot_ai_update initBot (4, 2) "hit") (4, 4) "hit").bot_mode
        = "hunt" ∧
     (bot_ai_update (bot_ai_update initBot (4, 2) "hit") (4, 4) "hit").bot_orient
        = none) ∧
    ((choose_locked_move pick0 (0, 0) lockedS boardHits24).1 = (4, 1) ∧
     (choose_locked_move pick0 (0, 0) lockedS boardLeftDone).1 = (4, 5) ∧
     (choose_locked_move pick0 (0, 0) lockedS boardEndsDone).1 = (4, 3)) := by
  refine ⟨⟨by decide, by decide, by decide⟩, ⟨by decide, by decide, by decide⟩⟩

/-- **C8** Turn and extra-shot rules: after a resolved attack the acting
side's extra-shot flag equals "result is hit or sink" (so it is cleared on
miss and on invalid); `next_turn` increments the turn counter exactly when
neither side's flag is set, and — given the game-loop invariant that a set
flag belongs to the side whose turn it is — it switches `current_turn` to
the other side exactly in that same case. -/
theorem turn_and_extra_shot_rules (g : Game) (coord : Coord)
    (pick : List Coord → Coord) (fb : Coord) :
    ((player_take_turn g coord).2.2.player_gets_extra_shot =
       (decide ((player_take_turn g coord).2.1 = "hit") ||
        decide ((player_take_turn g coord).2.1 = "sink"))) ∧
    ((bot_take_turn pick fb g).2.2.bot_gets_extra_shot =
       (decide ((bot_take_turn pick fb g).2.1 = "hit") ||
        decide ((bot_take_turn pick fb g).2.1 = "sink"))) ∧
    (g.player_gets_extra_shot = false → g.bot_gets_extra_shot = false →
       (next_turn g).turn_number = g.turn_number + 1) ∧
    ((g.player_gets_extra_shot = true ∨ g.bot_gets_extra_shot = true) →
       (next_turn g).turn_number = g.turn_number) ∧
    ((g.current_turn = "player" ∨ g.current_turn = "bot") →
     (g.player_gets_extra_shot = true → g.current_turn = "player") →
     (g.bot_gets_extra_shot = true → g.current_turn = "bot") →
       ((next_turn g).current_turn ≠ g.current_turn ↔
         (g.player_gets_extra_shot = false ∧ g.bot_gets_extra_shot = false))) := by
  refine ⟨rfl, rfl, ?_, ?_, ?_⟩
  · intro hp hb
    simp [next_turn, hp, hb]
  · intro hor
    rcases hor with hp | hb
    · simp [next_turn, hp]
    · simp [next_turn, hb, apply_ite]
  · intro hcur hpc hbc
    by_cases hp : g.player_gets_extra_shot = true
    · have hc := hpc hp
      have e : (next_turn g).current_turn = "player" := by
        simp [next_turn, hp]
      rw [e, hc]
      simp [hp]
    · have hp' := Bool.eq_false_iff.mpr hp
      by_cases hb : g.bot_gets_extra_shot = true
      · have hc := hbc hb
        have e : (next_turn g).current_turn = "bot" := by
          simp [next_turn, hp', hb]
        rw [e, hc]
        simp [hb]
      · have hb' := Bool.eq_false_iff.mpr hb
        rcases hcur with hc | hc
        · have e : (next_turn g).current_turn = "bot" := by
            simp [next_turn, hp', hb', hc]
          rw [e, hc]
          constructor
          · intro _
            exact ⟨hp', hb'⟩
          · intro _
            decide
        · have e : (next_turn g).current_turn = "player" := by
            simp [next_turn, hp', hb', hc]
          rw [e, hc]
          constructor
          · intro _
            exact ⟨hp', hb'⟩
          · intro _
            decide

/-- Witness for C8 at a concrete game with both flags clear: the counter
increments and the turn switches. -/
theorem turn_and_extra_shot_rules_witness :
    (next_turn gameEx).turn_number = gameEx.turn_number + 1 ∧
    ((next_turn gameEx).current_turn ≠ gameEx.current_turn ↔
      (gameEx.player_gets_extra_shot = false ∧ gameEx.bot_gets_extra_shot = false)) :=
  ⟨(turn_and_extra_shot_rules gameEx (0, 0) pick0 (0, 0)).2.2.1 rfl rfl,
   (turn_and_extra_shot_rules gameEx (0, 0) pick0 (0, 0)).2.2.2.2 (Or.inl rfl)
     (fun h => absurd h (by decide)) (fun h => absurd h (by decide))⟩

theorem findShipContaining_of_disjoint {coord : Coord} :
    ∀ {ships : List Ship}, PairwiseDisjoint ships →
      ∀ {t : Ship}, t ∈ ships → coord ∈ t →
        findShipContaining coord ships = some t := by
  intro ships
  induction ships with
  | nil =>
    intro _ t ht _
    cases ht
  | cons a rest ih =>
    intro hdis t ht hct
    rw [PairwiseDisjoint, List.pairwise_cons] at hdis
    unfold findShipContaining
    by_cases ha : (a.any (fun c => decide (c = coord))) = true
    · rw [if_pos ha]
      simp only [List.any_eq_true, decide_eq_true_eq] at ha
      obtain ⟨c, hc, rfl⟩ := ha
      rcases List.mem_cons.mp ht with rfl | htr
      · rfl
      · exact absurd hct (hdis.1 t htr c hc)
    · rw [if_neg ha]
      rcases List.mem_cons.mp ht with rfl | htr
      · exfalso
        apply ha
        simp only [List.any_eq_true, decide_eq_true_eq]
        exact ⟨coord, hct, rfl⟩
      · exact ih hdis.2 htr hct

theorem check_if_ship_sunk_iff {coord : Coord} {ships : List Ship} {board : Board} :
    check_if_ship_sunk coord ships board = true ↔
      ∃ s ∈ ships, coord ∈ s ∧ ∀ c ∈ s, board c = 'H' := by
  unfold check_if_ship_sunk
  simp only [List.any_eq_true, Bool.and_eq_true, List.all_eq_true, decide_eq_true_eq]
  constructor
  · rintro ⟨s, hs, ⟨c, hc, rfl⟩, hall⟩
    exact ⟨s, hs, hc, hall⟩
  · rintro ⟨s, hs, hc, hall⟩
    exact ⟨s, hs, ⟨coord, hc, rfl⟩, hall⟩

theorem mark_surrounding_eval {coord : Coord} {ships : List Ship} {b : Board}
    {ship : Ship} (hf : findShipContaining coord ships = some ship)
    (hall : (ship.all (fun x => decide (b x = 'H'))) = true) (n : Coord) :
    mark_surrounding_cells_as_miss coord ships b n =
      if decide (n ∈ ship.flatMap get_adjacent_and_diagonal_cells) &&
         decide (b n = ' ')
      then 'M' else b n := by
  unfold mark_surrounding_cells_as_miss
  simp only [hf]
  rw [if_pos hall]

/-- **C3** Sink implies perimeter closure: whenever `apply_move` returns
sink for a coordinate of some ship of a fleet with pairwise cell-disjoint
ships and a well-formed attack board, every in-bounds cell adjacent or
diagonal to any cell of that ship is hit or miss afterwards, never empty;
in particular a single size-1 ship at (0,0) is sunk by attacking (0,0),
leaving (0,1), (1,0) and (1,1) marked miss. -/
theorem sink_perimeter_closure :
    (∀ (board sb : Board) (ships : List Ship) (coord : Coord),
       PairwiseDisjoint ships → WellFormedAttack board →
       (apply_move board sb ships coord).1 = "sink" →
       ∀ ship ∈ ships, coord ∈ ship →
         ∀ c ∈ ship, ∀ n ∈ get_adjacent_and_diagonal_cells c,
           (apply_move board sb ships coord).2.2 n = 'H' ∨
           (apply_move board sb ships coord).2.2 n = 'M') ∧
    ((apply_move emptyB (create_ship_board [[(0, 0)]]) [[(0, 0)]] (0, 0)).1
        = "sink" ∧
     (apply_move emptyB (create_ship_board [[(0, 0)]]) [[(0, 0)]] (0, 0)).2.2 (0, 1)
        = 'M' ∧
     (apply_move emptyB (create_ship_board [[(0, 0)]]) [[(0, 0)]] (0, 0)).2.2 (1, 0)
        = 'M' ∧
     (apply_move emptyB (create_ship_board [[(0, 0)]]) [[(0, 0)]] (0, 0)).2.2 (1, 1)
        = 'M') := by
  constructor
  · intro board sb ships coord hdis hwf hsink ship hship hcoord c hc n hn
    by_cases h1 : in_bounds coord = true
    · by_cases h2 : board coord = 'M' ∨ board coord = 'H'
      · rw [apply_move_already board sb ships coord h1 h2] at hsink
        simp at hsink
      · by_cases h3 : sb coord = 'S'
        · by_cases h4 : check_if_ship_sunk coord ships (setCell board coord 'H') = true
          · have e := apply_move_sink board sb ships coord h1 h2 h3 h4
            rw [e]
            obtain ⟨s0, hs0, hc0, hall0⟩ := check_if_ship_sunk_iff.mp h4
            have hf := findShipContaining_of_disjoint hdis hship hcoord
            have hf0 := findShipContaining_of_disjoint hdis hs0 hc0
            rw [hf] at hf0
            have hss : ship = s0 := Option.some.inj hf0
            have hall : ∀ x ∈ ship, setCell board coord 'H' x = 'H' := by
              rw [hss]
              exact hall0
            have halltrue :
                (ship.all (fun x => decide (setCell board coord 'H' x = 'H'))) = true := by
              rw [List.all_eq_true]
              intro x hx
              simpa using hall x hx
            show mark_surrounding_cells_as_miss coord ships
                (setCell board coord 'H') n = 'H' ∨
              mark_surrounding_cells_as_miss coord ships
                (setCell board coord 'H') n = 'M'
            rw [mark_surrounding_eval hf halltrue n]
            have hmemcells : n ∈ ship.flatMap get_adjacent_and_diagonal_cells :=
              List.mem_flatMap.mpr ⟨c, hc, hn⟩
            by_cases hsp : setCell board coord 'H' n = ' '
            · rw [if_pos (by simp [hmemcells, hsp])]
              right
              rfl
            · rw [if_neg (by simp [hsp])]
              by_cases hnc : n = coord
              · left
                rw [hnc]
                exact setCell_same board coord 'H'
              · rw [setCell_other board coord n 'H' hnc] at hsp ⊢
                rcases hwf n with h | h | h
                · exact absurd h hsp
                · exact Or.inl h
                · exact Or.inr h
          · rw [apply_move_hit board sb ships coord h1 h2 h3
                (Bool.eq_false_iff.mpr h4)] at hsink
            simp at hsink
        · rw [apply_move_miss board sb ships coord h1 h2 h3] at hsink
          simp at hsink
    · rw [apply_move_oob board sb ships coord h1] at hsink
      simp at hsink
  · refine ⟨by decide, by decide, by decide, by decide⟩

/-- Witness for C3: the perimeter cell (1,1) of the sunk size-1 ship at
(0,0) is hit or miss. -/
theorem sink_perimeter_closure_witness :
    (apply_move emptyB (create_ship_board [[(0, 0)]]) [[(0, 0)]] (0, 0)).2.2 (1, 1)
        = 'H' ∨
    (apply_move emptyB (create_ship_board [[(0, 0)]]) [[(0, 0)]] (0, 0)).2.2 (1, 1)
        = 'M' :=
  sink_perimeter_closure.1 emptyB (create_ship_board [[(0, 0)]]) [[(0, 0)]] (0, 0)
    (by simp [PairwiseDisjoint]) (fun _ => Or.inl rfl) (by decide)
    [(0, 0)] (by simp) (by simp) (0, 0) (by simp) (1, 1) (by decide)

theorem round_trip_aux :
    ∀ r c : Fin 10,
      str_to_coords (coord_to_human (((r : Nat) : Int), ((c : Nat) : Int))) =
        [(((r : Nat) : Int), ((c : Nat) : Int))] ∧
      str_to_coords (pyLower (coord_to_human (((r : Nat) : Int), ((c : Nat) : Int)))) =
        [(((r : Nat) : Int), ((c : Nat) : Int))] ∧
      coords_to_str [(((r : Nat) : Int), ((c : Nat) : Int))] =
        coord_to_human (((r : Nat) : Int), ((c : Nat) : Int)) := by
  decide

/-- **C9** Coordinate text encoding round trip: for every in-bounds
coordinate, the encoders produce the column letter `'A' + col` followed by
the 1-based row number ((0,0) ↦ "A1", (9,9) ↦ "J10"), and `str_to_coords`
parses that string back — upper- or lower-case letter — to exactly
`[(row, col)]`. -/
theorem coord_text_round_trip (coord : Coord) (h : in_bounds coord = true) :
    coord_to_human coord =
      String.mk [Char.ofNat (coord.2 + 65).toNat] ++ toString (coord.1 + 1) ∧
    coords_to_str [coord] = coord_to_human coord ∧
    coord_to_human ((0 : Int), (0 : Int)) = "A1" ∧
    coord_to_human ((9 : Int), (9 : Int)) = "J10" ∧
    str_to_coords (coord_to_human coord) = [coord] ∧
    str_to_coords (pyLower (coord_to_human coord)) = [coord] := by
  obtain ⟨a, b⟩ := coord
  obtain ⟨h1, h2, h3, h4⟩ := in_bounds_iff.mp h
  simp only at h1 h2 h3 h4
  have ha : ((a.toNat : Int)) = a := Int.toNat_of_nonneg h1
  have hb : ((b.toNat : Int)) = b := Int.toNat_of_nonneg h3
  have hra : a.toNat < 10 := by omega
  have hrb : b.toNat < 10 := by omega
  have aux := round_trip_aux ⟨a.toNat, hra⟩ ⟨b.toNat, hrb⟩
  simp only [Fin.val_mk] at aux
  rw [ha, hb] at aux
  exact ⟨rfl, aux.2.2, by decide, by decide, aux.1, aux.2.1⟩

/-- Witness for C9 at (0,0): parsing the encoding returns the coordinate. -/
theorem coord_text_round_trip_witness :
    str_to_coords (coord_to_human ((0 : Int), (0 : Int))) =
      [((0 : Int), (0 : Int))] :=
  (coord_text_round_trip ((0 : Int), (0 : Int)) (by decide)).2.2.2.2.1

theorem firstEmptyDir_good {board : Board} {base : Coord} {dirs : List (Int × Int)}
    {n : Coord} (h : firstEmptyDir board base dirs = some n) :
    in_bounds n = true ∧ board n = ' ' := by
  unfold firstEmptyDir at h
  obtain ⟨d, _, hd⟩ := List.exists_of_findSome?_eq_some h
  dsimp only at hd
  by_cases hc : (in_bounds (base.1 + d.1, base.2 + d.2) &&
      decide (board (base.1 + d.1, base.2 + d.2) = ' ')) = true
  · rw [if_pos hc] at hd
    cases hd
    simp only [Bool.and_eq_true, decide_eq_true_eq] at hc
    exact hc
  · rw [if_neg hc] at hd
    cases hd

theorem huntFromChain_good {board : Board} {dirs : List (Int × Int)} :
    ∀ {l : List Coord} {pr : Coord × Coord},
      huntFromChain board dirs l = some pr →
      in_bounds pr.2 = true ∧ board pr.2 = ' ' := by
  intro l
  induction l with
  | nil =>
    intro pr h
    simp [huntFromChain] at h
  | cons a rest ih =>
    intro pr h
    unfold huntFromChain at h
    cases hfe : firstEmptyDir board a dirs with
    | some n =>
      simp only [hfe] at h
      cases h
      exact firstEmptyDir_good hfe
    | none =>
      simp only [hfe] at h
      exact ih h

theorem choose_random_move_good {pick : List Coord → Coord} {fb : Coord}
    {board : Board}
    (hp : ∀ l : List Coord, l ≠ [] → pick l ∈ l)
    (he : ∃ p : Coord, in_bounds p = true ∧ board p = ' ') :
    in_bounds (choose_random_move pick fb board) = true ∧
    board (choose_random_move pick fb board) = ' ' := by
  obtain ⟨p, hp1, hp2⟩ := he
  have hmem : p ∈ available_moves board := mem_available_moves.mpr ⟨hp1, hp2⟩
  have hne : available_moves board ≠ [] := by
    intro h0
    rw [h0] at hmem
    cases hmem
  unfold choose_random_move
  rw [if_neg hne]
  exact mem_available_moves.mp (hp _ hne)

theorem choose_hunt_move_good {pick : List Coord → Coord} {fb : Coord}
    {s : BotState} {board : Board}
    (hp : ∀ l : List Coord, l ≠ [] → pick l ∈ l)
    (he : ∃ p : Coord, in_bounds p = true ∧ board p = ' ') :
    in_bounds (choose_hunt_move pick fb s board).1 = true ∧
    board (choose_hunt_move pick fb s board).1 = ' ' := by
  unfold choose_hunt_move
  cases hlh : s.bot_last_hit with
  | none =>
    simp only [hlh]
    exact choose_random_move_good hp he
  | some lh =>
    simp only [hlh]
    cases hfe : firstEmptyDir board lh (hunt_directions s.bot_orient) with
    | some n =>
      simp only [hfe]
      exact firstEmptyDir_good hfe
    | none =>
      simp only [hfe]
      cases hhc : huntFromChain board (hunt_directions s.bot_orient)
          (s.bot_hit_chain.filter (fun h => h ≠ lh)) with
      | some pr =>
        obtain ⟨h', n⟩ := pr
        simp only [hhc]
        exact huntFromChain_good hhc
      | none =>
        simp only [hhc]
        exact choose_random_move_good hp he

theorem probeLeftH_good {board : Board} {row base : Int} {m : Coord}
    (hrow : 0 ≤ row ∧ row < 10) (hbase : base < 10)
    (h : probeLeftH board row base = some m) :
    in_bounds m = true ∧ board m = ' ' := by
  unfold probeLeftH at h
  obtain ⟨off, hoffmem, hoff⟩ := List.exists_of_findSome?_eq_some h
  dsimp only at hoff
  by_cases hc : (decide (0 ≤ base - off) && decide (board (row, base - off) = ' ')) = true
  · rw [if_pos hc] at hoff
    cases hoff
    simp only [Bool.and_eq_true, decide_eq_true_eq] at hc
    have hoffb : 1 ≤ off := by
      fin_cases hoffmem <;> omega
    refine ⟨?_, hc.2⟩
    rw [in_bounds_iff]
    exact ⟨hrow.1, hrow.2, hc.1, by omega⟩
  · rw [if_neg hc] at hoff
    cases hoff

theorem probeRightH_good {board : Board} {row base : Int} {m : Coord}
    (hrow : 0 ≤ row ∧ row < 10) (hbase : 0 ≤ base)
    (h : probeRightH board row base = some m) :
    in_bounds m = true ∧ board m = ' ' := by
  unfold probeRightH at h
  obtain ⟨off, hoffmem, hoff⟩ := List.exists_of_findSome?_eq_some h
  dsimp only at hoff
  by_cases hc : (decide (base + off < BOARD_SIZE) &&
      decide (board (row, base + off) = ' ')) = true
  · rw [if_pos hc] at hoff
    cases hoff
    simp only [Bool.and_eq_true, decide_eq_true_eq] at hc
    have hoffb : 1 ≤ off := by
      fin_cases hoffmem <;> omega
    have hlt : base + off < 10 := by
      have := hc.1
      simp only [BOARD_SIZE] at this
      omega
    refine ⟨?_, hc.2⟩
    rw [in_bounds_iff]
    exact ⟨hrow.1, hrow.2, by omega, hlt⟩
  · rw [if_neg hc] at hoff
    cases hoff

theorem probeUpV_good {board : Board} {col base : Int} {m : Coord}
    (hcol : 0 ≤ col ∧ col < 10) (hbase : base < 10)
    (h : probeUpV board col base = some m) :
    in_bounds m = true ∧ board m = ' ' := by
  unfold probeUpV at h
  obtain ⟨off, hoffmem, hoff⟩ := List.exists_of_findSome?_eq_some h
  dsimp only at hoff
  by_cases hc : (decide (0 ≤ base - off) && decide (board (base - off, col) = ' ')) = true
  · rw [if_pos hc] at hoff
    cases hoff
    simp only [Bool.and_eq_true, decide_eq_true_eq] at hc
    have hoffb : 1 ≤ off := by
      fin_cases hoffmem <;> omega
    refine ⟨?_, hc.2⟩
    rw [in_bounds_iff]
    exact ⟨hc.1, by omega, hcol.1, hcol.2⟩
  · rw [if_neg hc] at hoff
    cases hoff

theorem probeDownV_good {board : Board} {col base : Int} {m : Coord}
    (hcol : 0 ≤ col ∧ col < 10) (hbase : 0 ≤ base)
    (h : probeDownV board col base = some m) :
    in_bounds m = true ∧ board m = ' ' := by
  unfold probeDownV at h
  obtain ⟨off, hoffmem, hoff⟩ := List.exists_of_findSome?_eq_some h
  dsimp only at hoff
  by_cases hc : (decide (base + off < BOARD_SIZE) &&
      decide (board (base + off, col) = ' ')) = true
  · rw [if_pos hc] at hoff
    cases hoff
    simp only [Bool.and_eq_true, decide_eq_true_eq] at hc
    have hoffb : 1 ≤ off := by
      fin_cases hoffmem <;> omega
    have hlt : base + off < 10 := by
      have := hc.1
      simp only [BOARD_SIZE] at this
      omega
    refine ⟨?_, hc.2⟩
    rw [in_bounds_iff]
    exact ⟨by omega, hlt, hcol.1, hcol.2⟩
  · rw [if_neg hc] at hoff
    cases hoff

theorem gapScanH_good {board : Board} {row : Int} (hrow : 0 ≤ row ∧ row < 10) :
    ∀ (l : List Coord), (∀ p ∈ l, in_bounds p = true) →
      ∀ {m : Coord}, gapScanH board row l = some m →
        in_bounds m = true ∧ board m = ' '
  | [] => by
    intro _ m h
    simp [gapScanH] at h
  | [a] => by
    intro _ m h
    simp [gapScanH] at h
  | a :: b :: rest => by
    intro hl m h
    unfold gapScanH at h
    cases hX : (if decide (b.2 - a.2 > 1) then
        (intRange (a.2 + 1) b.2).findSome? (fun col =>
          if board (row, col) = ' ' then some (row, col) else none)
      else none) with
    | some v =>
      rw [hX] at h
      simp only [Option.orElse] at h
      cases h
      by_cases hgap : (decide (b.2 - a.2 > 1)) = true
      · rw [if_pos hgap] at hX
        obtain ⟨col, hcolmem, hcol⟩ := List.exists_of_findSome?_eq_some hX
        have hcb := intRange_bounds hcolmem
        by_cases hsp : board (row, col) = ' '
        · rw [if_pos hsp] at hcol
          cases hcol
          obtain ⟨_, _, ha3, _⟩ := in_bounds_iff.mp (hl a (by simp))
          obtain ⟨_, _, _, hb4⟩ := in_bounds_iff.mp (hl b (by simp))
          refine ⟨?_, hsp⟩
          rw [in_bounds_iff]
          exact ⟨hrow.1, hrow.2, by omega, by omega⟩
        · rw [if_neg hsp] at hcol
          cases hcol
      · rw [if_neg hgap] at hX
        cases hX
    | none =>
      rw [hX] at h
      simp only [Option.orElse] at h
      exact gapScanH_good hrow (b :: rest)
        (fun p hp => hl p (List.mem_cons_of_mem a hp)) h

theorem gapScanV_good {board : Board} {col : Int} (hcol : 0 ≤ col ∧ col < 10) :
    ∀ (l : List Coord), (∀ p ∈ l, in_bounds p = true) →
      ∀ {m : Coord}, gapScanV board col l = some m →
        in_bounds m = true ∧ board m = ' '
  | [] => by
    intro _ m h
    simp [gapScanV] at h
  | [a] => by
    intro _ m h
    simp [gapScanV] at h
  | a :: b :: rest => by
    intro hl m h
    unfold gapScanV at h
    cases hX : (if decide (b.1 - a.1 > 1) then
        (intRange (a.1 + 1) b.1).findSome? (fun row =>
          if board (row, col) = ' ' then some (row, col) else none)
      else none) with
    | some v =>
      rw [hX] at h
      simp only [Option.orElse] at h
      cases h
      by_cases hgap : (decide (b.1 - a.1 > 1)) = true
      · rw [if_pos hgap] at hX
        obtain ⟨row, hrowmem, hrow'⟩ := List.exists_of_findSome?_eq_some hX
        have hrb := intRange_bounds hrowmem
        by_cases hsp : board (row, col) = ' '
        · rw [if_pos hsp] at hrow'
          cases hrow'
          obtain ⟨ha1, _, _, _⟩ := in_bounds_iff.mp (hl a (by simp))
          obtain ⟨_, hb2, _, _⟩ := in_bounds_iff.mp (hl b (by simp))
          refine ⟨?_, hsp⟩
          rw [in_bounds_iff]
          exact ⟨by omega, by omega, hcol.1, hcol.2⟩
        · rw [if_neg hsp] at hrow'
          cases hrow'
      · rw [if_neg hgap] at hX
        cases hX
    | none =>
      rw [hX] at h
      simp only [Option.orElse] at h
      exact gapScanV_good hcol (b :: rest)
        (fun p hp => hl p (List.mem_cons_of_mem a hp)) h

theorem choose_locked_horizontal_move_good {pick : List Coord → Coord} {fb : Coord}
    {sh : List Coord} {s : BotState} {board : Board}
    (hp : ∀ l : List Coord, l ≠ [] → pick l ∈ l)
    (he : ∃ p : Coord, in_bounds p = true ∧ board p = ' ')
    (hne : sh ≠ []) (hb : ∀ p ∈ sh, in_bounds p = true) :
    in_bounds (choose_locked_horizontal_move pick fb sh s board).1 = true ∧
    board (choose_locked_horizontal_move pick fb sh s board).1 = ' ' := by
  have hhd := hb _ (headD_mem hne (0, 0))
  have hrow : 0 ≤ (sh.headD (0, 0)).1 ∧ (sh.headD (0, 0)).1 < 10 := by
    obtain ⟨x1, x2, _, _⟩ := in_bounds_iff.mp hhd
    exact ⟨x1, x2⟩
  have hmapne : sh.map Prod.snd ≠ [] := by
    intro h0
    exact hne (List.map_eq_nil_iff.mp h0)
  have hminlt : pyMin (sh.map Prod.snd) < 10 := by
    obtain ⟨p, hpmem, hpe⟩ := List.mem_map.mp (pyMin_mem hmapne)
    obtain ⟨_, _, _, x4⟩ := in_bounds_iff.mp (hb p hpmem)
    omega
  have hmaxge : 0 ≤ pyMax (sh.map Prod.snd) := by
    obtain ⟨p, hpmem, hpe⟩ := List.mem_map.mp (pyMax_mem hmapne)
    obtain ⟨_, _, x3, _⟩ := in_bounds_iff.mp (hb p hpmem)
    omega
  unfold choose_locked_horizontal_move
  cases hL : probeLeftH board (sh.headD (0, 0)).1 (pyMin (sh.map Prod.snd)) with
  | some m =>
    simp only [hL]
    exact probeLeftH_good hrow hminlt hL
  | none =>
    simp only [hL]
    cases hR : probeRightH board (sh.headD (0, 0)).1 (pyMax (sh.map Prod.snd)) with
    | some m =>
      simp only [hR]
      exact probeRightH_good hrow hmaxge hR
    | none =>
      simp only [hR]
      cases hG : gapScanH board (sh.headD (0, 0)).1 sh with
      | some m =>
        simp only [hG]
        exact gapScanH_good hrow sh hb hG
      | none =>
        simp only [hG]
        exact choose_hunt_move_good hp he

theorem choose_locked_vertical_move_good {pick : List Coord → Coord} {fb : Coord}
    {sh : List Coord} {s : BotState} {board : Board}
    (hp : ∀ l : List Coord, l ≠ [] → pick l ∈ l)
    (he : ∃ p : Coord, in_bounds p = true ∧ board p = ' ')
    (hne : sh ≠ []) (hb : ∀ p ∈ sh, in_bounds p = true) :
    in_bounds (choose_locked_vertical_move pick fb sh s board).1 = true ∧
    board (choose_locked_vertical_move pick fb sh s board).1 = ' ' := by
  have hhd := hb _ (headD_mem hne (0, 0))
  have hcol : 0 ≤ (sh.headD (0, 0)).2 ∧ (sh.headD (0, 0)).2 < 10 := by
    obtain ⟨_, _, x3, x4⟩ := in_bounds_iff.mp hhd
    exact ⟨x3, x4⟩
  have hmapne : sh.map Prod.fst ≠ [] := by
    intro h0
    exact hne (List.map_eq_nil_iff.mp h0)
  have hminlt : pyMin (sh.map Prod.fst) < 10 := by
    obtain ⟨p, hpmem, hpe⟩ := List.mem_map.mp (pyMin_mem hmapne)
    obtain ⟨_, x2, _, _⟩ := in_bounds_iff.mp (hb p hpmem)
    omega
  have hmaxge : 0 ≤ pyMax (sh.map Prod.fst) := by
    obtain ⟨p, hpmem, hpe⟩ := List.mem_map.mp (pyMax_mem hmapne)
    obtain ⟨x1, _, _, _⟩ := in_bounds_iff.mp (hb p hpmem)
    omega
  unfold choose_locked_vertical_move
  cases hU : probeUpV board (sh.headD (0, 0)).2 (pyMin (sh.map Prod.fst)) with
  | some m =>
    simp only [hU]
    exact probeUpV_good hcol hminlt hU
  | none =>
    simp only [hU]
    cases hD : probeDownV board (sh.headD (0, 0)).2 (pyMax (sh.map Prod.fst)) with
    | some m =>
      simp only [hD]
      exact probeDownV_good hcol hmaxge hD
    | none =>
      simp only [hD]
      cases hG : gapScanV board (sh.headD (0, 0)).2 sh with
      | some m =>
        simp only [hG]
        exact gapScanV_good hcol sh hb hG
      | none =>
        simp only [hG]
        exact choose_hunt_move_good hp he

theorem choose_locked_move_good {pick : List Coord → Coord} {fb : Coord}
    {s : BotState} {board : Board}
    (hp : ∀ l : List Coord, l ≠ [] → pick l ∈ l)
    (he : ∃ p : Coord, in_bounds p = true ∧ board p = ' ')
    (hc : ∀ p ∈ s.bot_hit_chain, in_bounds p = true) :
    in_bounds (choose_locked_move pick fb s board).1 = true ∧
    board (choose_locked_move pick fb s board).1 = ' ' := by
  unfold choose_locked_move
  by_cases hlen : s.bot_hit_chain.length < 2
  · rw [if_pos hlen]
    exact choose_hunt_move_good hp he
  · rw [if_neg hlen]
    have hbs : ∀ p ∈ pySorted coordLe s.bot_hit_chain, in_bounds p = true :=
      fun p hp' => hc p (mem_pySorted.mp hp')
    have hnes : pySorted coordLe s.bot_hit_chain ≠ [] := by
      intro h0
      have hl := pySorted_length coordLe s.bot_hit_chain
      rw [h0] at hl
      simp only [List.length_nil] at hl
      omega
    by_cases ho1 : s.bot_orient = some "horizontal"
    · rw [if_pos ho1]
      exact choose_locked_horizontal_move_good hp he hnes hbs
    · rw [if_neg ho1]
      by_cases ho2 : s.bot_orient = some "vertical"
      · rw [if_pos ho2]
        exact choose_locked_vertical_move_good hp he hnes hbs
      · rw [if_neg ho2]
        by_cases hi1 : (infer_orientation s).bot_orient = some "horizontal"
        · rw [if_pos hi1]
          exact choose_locked_horizontal_move_good hp he hnes hbs
        · rw [if_neg hi1]
          by_cases hi2 : (infer_orientation s).bot_orient = some "vertical"
          · rw [if_pos hi2]
            exact choose_locked_vertical_move_good hp he hnes hbs
          · rw [if_neg hi2]
            exact choose_hunt_move_good hp he

/-- **C5** AI move legality (and, by totality of the selection functions,
termination of the Locked → Hunt → Random degradation): from every AI state
whose hit chain lies in bounds (true of every reachable state), if the
opponent's attack board still has an empty in-bounds cell, `choose_bot_move`
returns an in-bounds coordinate whose attack-board cell is empty — for every
`random.choice` oracle satisfying the choice contract. -/
theorem bot_move_legal (pick : List Coord → Coord) (fb : Coord) (s : BotState)
    (board : Board)
    (hpick : ∀ l : List Coord, l ≠ [] → pick l ∈ l)
    (hchain : ∀ p ∈ s.bot_hit_chain, in_bounds p = true)
    (hempty : ∃ p : Coord, in_bounds p = true ∧ board p = ' ') :
    in_bounds (choose_bot_move pick fb s board).1 = true ∧
    board (choose_bot_move pick fb s board).1 = ' ' := by
  unfold choose_bot_move
  by_cases h1 : s.bot_mode = "random"
  · rw [if_pos h1]
    exact choose_random_move_good hpick hempty
  · rw [if_neg h1]
    by_cases h2 : s.bot_mode = "hunt"
    · rw [if_pos h2]
      exact choose_hunt_move_good hpick hempty
    · rw [if_neg h2]
      by_cases h3 : s.bot_mode = "locked"
      · rw [if_pos h3]
        exact choose_locked_move_good hpick hempty hchain
      · rw [if_neg h3]
        exact choose_random_move_good hpick hempty

/-- Witness for C5: on an empty board from the initial AI state, the chosen
move is an empty in-bounds cell. -/
theorem bot_move_legal_witness :
    in_bounds (choose_bot_move pick0 (0, 0) initBot emptyB).1 = true ∧
    emptyB (choose_bot_move pick0 (0, 0) initBot emptyB).1 = ' ' :=
  bot_move_legal pick0 (0, 0) initBot emptyB
    (fun l hl => by
      cases l with
      | nil => exact absurd rfl hl
      | cons a t => exact List.mem_cons_self a t)
    (fun p hp => by simp [initBot] at hp)
    ⟨(0, 0), by decide, rfl⟩
